import Mathlib

/-!
Verification of `add_playlist_to_mstream.py` against its natural-language
specification.  The Python source is shallowly embedded: file contents are
lists of raw lines, the filesystem is an explicit inductive value, and the
orchestrator `main` is a function from an abstract run environment to an
exit code together with the trace of HTTP events it performs.
-/

/-! ### String helpers (models of Python `str` methods) -/

/-- Model of Python `str.strip()`: remove leading and trailing whitespace.
Embeds `raw_line.strip()` from `parse_m3u` (line 118 of the source). -/
def pyStrip (s : String) : String :=
  String.mk (List.rdropWhile Char.isWhitespace (List.dropWhile Char.isWhitespace s.data))

/-- The first non-whitespace character of a string, if any.  Used to state
the spec's "first non-whitespace character is not `#`" condition. -/
def firstNonWs (s : String) : Option Char :=
  (s.data.dropWhile Char.isWhitespace).head?

/-- Loop body of `parse_m3u` (lines 117-120 of the source):
`line = raw_line.strip(); if line and not line.startswith("#"): songs.append(line)`.
`line.startswith("#")` for the one-character prefix `"#"` is embedded as
"the first character of `line` is `'#'`". -/
def parseStep (songs : List String) (raw : String) : List String :=
  let line := pyStrip raw
  if line ≠ "" ∧ line.data.head? ≠ some '#' then songs ++ [line] else songs

/-- Model of `parse_m3u` (lines 99-122 of the source), taking the file's
raw lines as input.  Folds the loop body over the lines starting from the
empty `songs` accumulator. -/
def parse_m3u (lines : List String) : List String :=
  lines.foldl parseStep []

/-- Specification-side description of the parser: keep exactly the lines
that are non-empty after trimming and whose first non-whitespace character
is not `'#'`, each trimmed, in file order. -/
def parse_m3u_spec (lines : List String) : List String :=
  (lines.filter (fun raw => decide (pyStrip raw ≠ "" ∧ firstNonWs raw ≠ some '#'))).map pyStrip

lemma mk_ne_empty {l : List Char} (h : l ≠ []) : String.mk l ≠ "" := by
  intro he
  exact h (congrArg String.data he)

lemma head?_pyStrip (s : String) : (pyStrip s).data.head? = firstNonWs s := by
  unfold pyStrip firstNonWs
  cases hd : (s.data.dropWhile Char.isWhitespace) with
  | nil => simp [List.rdropWhile_nil]
  | cons a t =>
      have hws : Char.isWhitespace a = false := by
        have hne : s.data.dropWhile Char.isWhitespace ≠ [] := by
          rw [hd]; exact List.cons_ne_nil a t
        have := List.head_dropWhile_not Char.isWhitespace s.data hne
        have hhead : (s.data.dropWhile Char.isWhitespace).head hne = a := by
          simp [hd]
        rwa [hhead] at this
      have hnonnil : List.rdropWhile Char.isWhitespace (a :: t) ≠ [] := by
        intro hnil
        have := (List.rdropWhile_eq_nil_iff).mp hnil a (by simp)
        simp [hws] at this
      obtain ⟨t2, ht2⟩ := List.rdropWhile_prefix Char.isWhitespace (a :: t)
      have : (List.rdropWhile Char.isWhitespace (a :: t) ++ t2).head? =
          (List.rdropWhile Char.isWhitespace (a :: t)).head? := by
        rw [List.head?_append]
        cases hh : (List.rdropWhile Char.isWhitespace (a :: t)).head? with
        | none => exact absurd (List.head?_eq_none_iff.mp hh) hnonnil
        | some x => simp
      rw [ht2] at this
      simp [← this]

lemma parse_m3u_foldl (lines : List String) (acc : List String) :
    lines.foldl parseStep acc = acc ++ parse_m3u_spec lines := by
  induction lines generalizing acc with
  | nil => simp [parse_m3u_spec]
  | cons raw rest ih =>
      by_cases h : pyStrip raw ≠ "" ∧ firstNonWs raw ≠ some '#'
      · have hsrc : pyStrip raw ≠ "" ∧ (pyStrip raw).data.head? ≠ some '#' := by
          rw [head?_pyStrip]; exact h
        simp only [List.foldl_cons, parseStep, parse_m3u_spec, List.filter_cons]
        rw [if_pos hsrc, ih]
        simp [parse_m3u_spec, h]
      · have hsrc : ¬(pyStrip raw ≠ "" ∧ (pyStrip raw).data.head? ≠ some '#') := by
          rw [head?_pyStrip]; exact h
        simp only [List.foldl_cons, parseStep, parse_m3u_spec, List.filter_cons]
        rw [if_neg hsrc, ih]
        simp [parse_m3u_spec, h]

lemma parse_m3u_eq_spec (lines : List String) : parse_m3u lines = parse_m3u_spec lines := by
  unfold parse_m3u
  rw [parse_m3u_foldl]
  simp

/-- Claim C1: for every playlist file content, `parse_m3u` returns exactly the
lines of the file that are non-empty after trimming surrounding whitespace and
whose first non-whitespace character is not `'#'`, each returned entry trimmed,
in the same order as they appear in the file. -/
theorem claim_C1 (lines : List String) : parse_m3u lines = parse_m3u_spec lines :=
  parse_m3u_eq_spec lines

/-! ### Path-name helpers (models of `pathlib.PurePath.suffix` / `.stem`) -/

/-- Index of the last `'.'` in a character list, as in Python `name.rfind('.')`
(but `Option`-valued instead of `-1`). -/
def lastDotIdx (cs : List Char) : Option Nat :=
  (cs.reverse.findIdx? (· == '.')).map (fun j => cs.length - 1 - j)

/-- Model of `pathlib.PurePath.suffix` on a file name:
`i = name.rfind('.'); return name[i:] if 0 < i < len(name) - 1 else ''`. -/
def pySuffix (name : String) : String :=
  match lastDotIdx name.data with
  | some i => if 0 < i ∧ i < name.data.length - 1 then String.mk (name.data.drop i) else ""
  | none => ""

/-- Model of `pathlib.PurePath.stem` on a file name:
`i = name.rfind('.'); return name[:i] if 0 < i < len(name) - 1 else name`. -/
def pyStem (name : String) : String :=
  match lastDotIdx name.data with
  | some i => if 0 < i ∧ i < name.data.length - 1 then String.mk (name.data.take i) else name
  | none => name

/-! ### Lexicographic string order (model of Python `str` comparison)

Python compares strings lexicographically by code point; `sorted` on
`pathlib.Path` values compares their path strings this way (POSIX). -/

def lexLe : List Char → List Char → Bool
  | [], _ => true
  | _ :: _, [] => false
  | x :: xs, y :: ys =>
      if x.toNat = y.toNat then lexLe xs ys else decide (x.toNat < y.toNat)

/-- Code-point lexicographic order on strings. -/
def strLe (a b : String) : Bool := lexLe a.data b.data

lemma lexLe_total (a b : List Char) : lexLe a b = true ∨ lexLe b a = true := by
  induction a generalizing b with
  | nil => left; rfl
  | cons x xs ih =>
      cases b with
      | nil => right; rfl
      | cons y ys =>
          by_cases hxy : x.toNat = y.toNat
          · rcases ih ys with h | h
            · left; simp [lexLe, hxy, h]
            · right; simp [lexLe, hxy.symm, h]
          · rcases Nat.lt_or_ge x.toNat y.toNat with h | h
            · left; simp [lexLe, hxy, h]
            · have hlt : y.toNat < x.toNat := Nat.lt_of_le_of_ne h (fun he => hxy he.symm)
              have hne : y.toNat ≠ x.toNat := Nat.ne_of_lt hlt
              right
              simp [lexLe, hne, hlt]

lemma lexLe_trans {a b c : List Char} (hab : lexLe a b = true) (hbc : lexLe b c = true) :
    lexLe a c = true := by
  induction a generalizing b c with
  | nil => rfl
  | cons x xs ih =>
      cases b with
      | nil => simp [lexLe] at hab
      | cons y ys =>
          cases c with
          | nil => simp [lexLe] at hbc
          | cons z zs =>
              by_cases hxy : x.toNat = y.toNat
              · by_cases hyz : y.toNat = z.toNat
                · have hxz : x.toNat = z.toNat := hxy.trans hyz
                  simp only [lexLe, hxy, if_true] at hab
                  simp only [lexLe, hyz, if_true] at hbc
                  simp only [lexLe, hxz, if_true]
                  exact ih hab hbc
                · simp only [lexLe, hyz, if_false] at hbc
                  have hlt : y.toNat < z.toNat := of_decide_eq_true hbc
                  have hxz : x.toNat ≠ z.toNat := by
                    rw [hxy]; exact Nat.ne_of_lt hlt
                  have : x.toNat < z.toNat := hxy ▸ hlt
                  simp [lexLe, hxz, this]
              · simp only [lexLe, hxy, if_false] at hab
                have hltxy : x.toNat < y.toNat := of_decide_eq_true hab
                by_cases hyz : y.toNat = z.toNat
                · have : x.toNat < z.toNat := hyz ▸ hltxy
                  have hxz : x.toNat ≠ z.toNat := Nat.ne_of_lt this
                  simp [lexLe, hxz, this]
                · simp only [lexLe, hyz, if_false] at hbc
                  have hltyz : y.toNat < z.toNat := of_decide_eq_true hbc
                  have : x.toNat < z.toNat := Nat.lt_trans hltxy hltyz
                  have hxz : x.toNat ≠ z.toNat := Nat.ne_of_lt this
                  simp [lexLe, hxz, this]

/-! ### Filesystem model and `gather_m3u_files` -/

/-- An immediate child of the input directory: its file name and whether it
is a regular file. -/
structure DirEntry where
  name : String
  isFile : Bool
deriving DecidableEq

/-- The filesystem node the (resolved) input path refers to. -/
inductive FSNode where
  | file (name : String)
  | dir (entries : List DirEntry)
  | missing
deriving DecidableEq

/-- The spec's error taxonomy for discovery: `InvalidInput` is the source's
`ValueError` (wrong extension on a file input), `PathNotFound` the source's
`NotADirectoryError` (path neither file nor directory). -/
inductive GatherError where
  | invalidInput
  | pathNotFound
deriving DecidableEq

/-- A discovered playlist file: its resolved absolute path and its final
name component (from which the playlist title is derived). -/
structure PathItem where
  pathStr : String
  name : String
deriving DecidableEq

/-- Model of Python `str.lower()` (character-wise lowercasing), used by the
`root.suffix.lower()` check on line 141 of the source. -/
def pyLower (s : String) : String := String.mk (s.data.map Char.toLower)

/-- Whether a file name matches the glob pattern `"*.m3u"` (line 149 of the
source): `fnmatch` translates the pattern to "any sequence of characters
followed by the literal `.m3u`", i.e. the name ends with `".m3u"`. -/
def globM3uMatch (name : String) : Bool := ".m3u".data.isSuffixOf name.data

/-- Comparison used by `sorted` on resolved paths. -/
def pathLe (a b : PathItem) : Prop := strLe a.pathStr b.pathStr = true

instance : DecidableRel pathLe := fun a b => instDecidableEqBool (strLe a.pathStr b.pathStr) true

instance : IsTotal PathItem pathLe :=
  ⟨fun a b => lexLe_total a.pathStr.data b.pathStr.data⟩

instance : IsTrans PathItem pathLe :=
  ⟨fun _ _ _ hab hbc => lexLe_trans hab hbc⟩

/-- Model of `gather_m3u_files` (lines 124-149 of the source).  `node` is the
filesystem node the path refers to and `rootResolved` its resolved absolute
path.  Child resolution is modelled as `rootResolved ++ "/" ++ name`
(the no-symlink reading of `p.resolve()`). -/
def gather_m3u_files (node : FSNode) (rootResolved : String) :
    Except GatherError (List PathItem) :=
  match node with
  | FSNode.file name =>
      if pyLower (pySuffix name) ≠ ".m3u" then Except.error GatherError.invalidInput
      else Except.ok [⟨rootResolved, name⟩]
  | FSNode.dir entries =>
      Except.ok (List.insertionSort pathLe
        ((entries.filter (fun e => e.isFile && globM3uMatch e.name)).map
          (fun e => ⟨rootResolved ++ "/" ++ e.name, e.name⟩)))
  | FSNode.missing => Except.error GatherError.pathNotFound

/-! ### URL construction (`Settings.BASE_URL` and `api_request`) -/

/-- Model of `str.rstrip("/")`: remove all trailing `'/'` characters.
Embeds the `.rstrip("/")` on line 60 of the source. -/
def rstripSlash (s : String) : String :=
  String.mk (List.rdropWhile (· == '/') s.data)

/-- Model of `str.lstrip("/")`: remove all leading `'/'` characters.
Embeds the `endpoint.lstrip('/')` on line 176 of the source. -/
def lstripSlash (s : String) : String :=
  String.mk (List.dropWhile (· == '/') s.data)

/-- Model of `Settings.BASE_URL` (line 60 of the source):
`os.getenv("MS_BASE_URL", "http://127.0.0.1:3000").rstrip("/")`. -/
def settingsBaseUrl (envVar : Option String) : String :=
  rstripSlash (envVar.getD "http://127.0.0.1:3000")

/-- URL built by `api_request` (line 176 of the source) from an already
normalized base URL: `f"{Settings.BASE_URL}/{endpoint.lstrip('/')}"`. -/
def api_request_url (baseUrl endpoint : String) : String :=
  baseUrl ++ "/" ++ lstripSlash endpoint

/-- The full request URL from the raw configured base URL and an endpoint:
the base is normalized by `Settings.BASE_URL`'s `rstrip("/")` and then joined
by `api_request`. -/
def requestUrl (rawBase endpoint : String) : String :=
  api_request_url (rstripSlash rawBase) endpoint

/-! ### Configuration (`Settings`) -/

/-- The three configuration values of the `Settings` class (after
the environment lookups with defaults on lines 60-62 of the source). -/
structure Config where
  BASE_URL : String
  USERNAME : String
  PASSWORD : String
deriving DecidableEq

/-- `getattr(cls, name)` for the keys in `Settings._REQUIRED_KEYS`. -/
def Settings.getSetting (c : Config) : String → String
  | "BASE_URL" => c.BASE_URL
  | "USERNAME" => c.USERNAME
  | "PASSWORD" => c.PASSWORD
  | _ => ""

/-- Model of `Settings.validate` (lines 69-78 of the source): the list of
required keys whose value is falsy (the empty string). -/
def Settings.missingKeys (c : Config) : List String :=
  ["BASE_URL", "USERNAME", "PASSWORD"].filter (fun n => Settings.getSetting c n == "")

/-- `Settings.validate` succeeds iff no required key is missing. -/
def Settings.validateOk (c : Config) : Bool :=
  (Settings.missingKeys c).isEmpty

/-! ### The orchestrator `main` (lines 239-295 of the source)

`main` is modelled as a function from an abstract run environment to the
pair of its exit code and the ordered trace of HTTP calls it performs. -/

/-- One HTTP call performed during the run: the login `POST` or a
`POST /api/v1/playlist/save` carrying the playlist title and songs. -/
inductive Event where
  | loginAttempt
  | uploadAttempt (title : String) (songs : List String)
deriving DecidableEq

def Event.isLogin : Event → Bool
  | Event.loginAttempt => true
  | _ => false

def Event.isUpload : Event → Bool
  | Event.uploadAttempt _ _ => true
  | _ => false

/-- Abstract environment of one run: the configuration, the filesystem node
and resolved path of the CLI `--path` argument, whether the login HTTP call
returns 2xx, the lines each discovered file has at read time (`none` = the
file vanished between discovery and read), and whether the playlist-save
HTTP call for a given file returns 2xx. -/
structure RunEnv where
  config : Config
  fs : FSNode
  rootResolved : String
  loginOk : Bool
  fileLines : String → Option (List String)
  uploadOk : String → Bool

/-- Body of the per-file upload loop (lines 276-292 of the source): parse
the file, then submit it.  Returns whether the iteration succeeded and the
HTTP calls it performed: a vanished file raises in `parse_m3u` before any
HTTP call; otherwise the save request is attempted and fails on a non-2xx
response.  Either failure is caught by the loop's broad `except`. -/
def uploadOne (env : RunEnv) (f : PathItem) : Bool × List Event :=
  match env.fileLines f.pathStr with
  | none => (false, [])
  | some lines =>
      (env.uploadOk f.pathStr, [Event.uploadAttempt (pyStem f.name) (parse_m3u lines)])

/-- Model of `main` (lines 239-295 of the source): validate configuration,
discover playlist files, abort on an empty result, log in once, then upload
each file in turn, ignoring per-file failures.  Returns the process exit
code and the trace of HTTP calls. -/
def mainRun (env : RunEnv) : Nat × List Event :=
  if Settings.validateOk env.config = false then (1, [])
  else
    match gather_m3u_files env.fs env.rootResolved with
    | Except.error _ => (1, [])
    | Except.ok files =>
        if files = [] then (1, [])
        else if env.loginOk = false then (1, [Event.loginAttempt])
        else (0, Event.loginAttempt :: (files.map (fun f => (uploadOne env f).2)).flatten)

/-! ### Helper lemmas -/

lemma data_mk (l : List Char) : (String.mk l).data = l := rfl

lemma glob_ne_nil {name : String} (h : globM3uMatch name = true) : name.data ≠ [] := by
  intro hnil
  unfold globM3uMatch at h
  rw [hnil] at h
  exact absurd h (by decide)

lemma pyStem_ne_of_data_ne_nil {name : String} (h : name.data ≠ []) : pyStem name ≠ "" := by
  unfold pyStem
  cases hidx : lastDotIdx name.data with
  | none =>
      intro he
      exact h (congrArg String.data he)
  | some i =>
      dsimp only
      by_cases hc : 0 < i ∧ i < name.data.length - 1
      · rw [if_pos hc]
        apply mk_ne_empty
        intro htake
        rcases List.take_eq_nil_iff.mp htake with h0 | hnil
        · exact absurd h0 (Nat.pos_iff_ne_zero.mp hc.1)
        · exact h hnil
      · rw [if_neg hc]
        intro he
        exact h (congrArg String.data he)

lemma suffix_lower_cond {name : String} (h : pyLower (pySuffix name) = ".m3u") :
    name.data ≠ [] := by
  unfold pySuffix at h
  cases hidx : lastDotIdx name.data with
  | none =>
      rw [hidx] at h
      dsimp only at h
      exact absurd h (by decide)
  | some i =>
      rw [hidx] at h
      dsimp only at h
      by_cases hc : 0 < i ∧ i < name.data.length - 1
      · intro hnil
        have h2 := hc.2
        rw [hnil] at h2
        simp at h2
      · rw [if_neg hc] at h
        exact absurd h (by decide)

lemma mainRun_config_fail {env : RunEnv} (h : Settings.validateOk env.config = false) :
    mainRun env = (1, []) := by
  simp [mainRun, h]

lemma mainRun_gather_error {env : RunEnv} {er : GatherError}
    (h : gather_m3u_files env.fs env.rootResolved = Except.error er) :
    mainRun env = (1, []) := by
  unfold mainRun
  cases hv : Settings.validateOk env.config with
  | false => simp
  | true => simp [h]

lemma mainRun_login_fail {env : RunEnv} {files : List PathItem}
    (h1 : Settings.validateOk env.config = true)
    (h2 : gather_m3u_files env.fs env.rootResolved = Except.ok files)
    (h3 : files ≠ []) (h4 : env.loginOk = false) :
    mainRun env = (1, [Event.loginAttempt]) := by
  unfold mainRun
  rw [h1, h2]
  simp [h3, h4]

lemma mainRun_ok {env : RunEnv} {files : List PathItem}
    (h1 : Settings.validateOk env.config = true)
    (h2 : gather_m3u_files env.fs env.rootResolved = Except.ok files)
    (h3 : files ≠ []) (h4 : env.loginOk = true) :
    mainRun env =
      (0, Event.loginAttempt :: (files.map (fun f => (uploadOne env f).2)).flatten) := by
  unfold mainRun
  rw [h1, h2]
  simp [h3, h4]

lemma uploadOne_events {env : RunEnv} {f : PathItem} {e : Event}
    (h : e ∈ (uploadOne env f).2) :
    ∃ lines, env.fileLines f.pathStr = some lines ∧
      e = Event.uploadAttempt (pyStem f.name) (parse_m3u lines) := by
  unfold uploadOne at h
  cases hl : env.fileLines f.pathStr with
  | none => rw [hl] at h; simp at h
  | some lines =>
      rw [hl] at h
      simp at h
      exact ⟨lines, rfl, h⟩

lemma flatten_countP_login (env : RunEnv) (files : List PathItem) :
    ((files.map (fun f => (uploadOne env f).2)).flatten).countP Event.isLogin = 0 := by
  rw [List.countP_eq_zero]
  intro e he
  rw [List.mem_flatten] at he
  obtain ⟨l, hl, hel⟩ := he
  rw [List.mem_map] at hl
  obtain ⟨f, _, hfl⟩ := hl
  obtain ⟨lines, _, hev⟩ := uploadOne_events (hfl ▸ hel)
  rw [hev]
  simp [Event.isLogin]

lemma getSetting_base (c : Config) : Settings.getSetting c "BASE_URL" = c.BASE_URL := rfl

lemma getSetting_user (c : Config) : Settings.getSetting c "USERNAME" = c.USERNAME := rfl

lemma getSetting_pass (c : Config) : Settings.getSetting c "PASSWORD" = c.PASSWORD := rfl

lemma validateOk_iff (c : Config) :
    Settings.validateOk c = true ↔ (c.BASE_URL ≠ "" ∧ c.USERNAME ≠ "" ∧ c.PASSWORD ≠ "") := by
  simp only [Settings.validateOk, Settings.missingKeys, List.filter_cons, List.filter_nil,
    getSetting_base, getSetting_user, getSetting_pass, beq_iff_eq]
  by_cases h1 : c.BASE_URL = "" <;> by_cases h2 : c.USERNAME = "" <;>
    by_cases h3 : c.PASSWORD = "" <;> simp [h1, h2, h3]

/-! ### Claim theorems -/

/-- Claim C2: for every existing directory given as the path,
`gather_m3u_files` returns exactly the regular files that are immediate
children of that directory with the `.m3u` glob extension, and the returned
list is sorted by resolved absolute path. -/
theorem claim_C2 (entries : List DirEntry) (r : String) :
    ∃ files,
      gather_m3u_files (FSNode.dir entries) r = Except.ok files ∧
      List.Sorted (fun a b : String => strLe a b = true) (files.map PathItem.pathStr) ∧
      (∀ x : PathItem, x ∈ files ↔ ∃ e, e ∈ entries ∧ e.isFile = true ∧
        globM3uMatch e.name = true ∧ x = ⟨r ++ "/" ++ e.name, e.name⟩) := by
  refine ⟨_, rfl, ?_, ?_⟩
  · exact List.Pairwise.map PathItem.pathStr (fun a b hab => hab)
      (List.sorted_insertionSort pathLe _)
  · intro x
    constructor
    · intro hx
      rw [List.mem_insertionSort, List.mem_map] at hx
      obtain ⟨e, he, hx⟩ := hx
      rw [List.mem_filter, Bool.and_eq_true] at he
      exact ⟨e, he.1, he.2.1, he.2.2, hx.symm⟩
    · rintro ⟨e, he, h1, h2, hx⟩
      rw [List.mem_insertionSort, List.mem_map]
      refine ⟨e, List.mem_filter.mpr ⟨he, ?_⟩, hx.symm⟩
      rw [Bool.and_eq_true]
      exact ⟨h1, h2⟩

/-- Claim C3: with configuration, discovery and login all succeeding, the run
exits with code 0 and every discovered file that can be read is submitted,
regardless of which per-file save requests fail and which files vanished. -/
theorem claim_C3 (env : RunEnv) (files : List PathItem)
    (h1 : Settings.validateOk env.config = true)
    (h2 : gather_m3u_files env.fs env.rootResolved = Except.ok files)
    (h3 : files ≠ []) (h4 : env.loginOk = true) :
    (mainRun env).1 = 0 ∧
    ∀ f ∈ files, ∀ lines, env.fileLines f.pathStr = some lines →
      Event.uploadAttempt (pyStem f.name) (parse_m3u lines) ∈ (mainRun env).2 := by
  have hm := mainRun_ok h1 h2 h3 h4
  refine ⟨by rw [hm], ?_⟩
  intro f hf lines hl
  rw [hm]
  apply List.mem_cons_of_mem
  rw [List.mem_flatten]
  refine ⟨(uploadOne env f).2, List.mem_map_of_mem _ hf, ?_⟩
  unfold uploadOne
  rw [hl]
  simp

/-- Claim C4: when configuration and discovery succeed, login is attempted
exactly once and before any upload; if the login call fails, the run exits
with code 1 and no playlist-save upload is attempted. -/
theorem claim_C4 (env : RunEnv) (files : List PathItem)
    (h1 : Settings.validateOk env.config = true)
    (h2 : gather_m3u_files env.fs env.rootResolved = Except.ok files)
    (h3 : files ≠ []) :
    ((mainRun env).2.countP Event.isLogin = 1 ∧
      (mainRun env).2.head? = some Event.loginAttempt) ∧
    (env.loginOk = false →
      (mainRun env).1 = 1 ∧ (mainRun env).2.countP Event.isUpload = 0) := by
  cases h4 : env.loginOk with
  | false =>
      have hm := mainRun_login_fail h1 h2 h3 h4
      rw [hm]
      exact ⟨⟨by decide, rfl⟩, fun _ => ⟨rfl, by decide⟩⟩
  | true =>
      have hm := mainRun_ok h1 h2 h3 h4
      refine ⟨⟨?_, ?_⟩, ?_⟩
      · rw [hm]
        have : List.countP Event.isLogin (Event.loginAttempt ::
            (files.map (fun f => (uploadOne env f).2)).flatten) = 1 := by
          rw [List.countP_cons, flatten_countP_login]
          simp [Event.isLogin]
        exact this
      · rw [hm]
        rfl
      · intro hfalse
        exact Bool.noConfusion hfalse

/-- Claim C6: a playlist file whose lines are all blank or comments parses to
an empty track list, and the orchestrator still submits it to the
playlist-save endpoint as a playlist with zero tracks. -/
theorem claim_C6 :
    (∀ lines, (∀ l ∈ lines, pyStrip l = "" ∨ firstNonWs l = some '#') →
      parse_m3u lines = []) ∧
    (∀ env files f lines, Settings.validateOk env.config = true →
      gather_m3u_files env.fs env.rootResolved = Except.ok files → files ≠ [] →
      env.loginOk = true → f ∈ files → env.fileLines f.pathStr = some lines →
      (∀ l ∈ lines, pyStrip l = "" ∨ firstNonWs l = some '#') →
      Event.uploadAttempt (pyStem f.name) [] ∈ (mainRun env).2) := by
  have hempty : ∀ lines, (∀ l ∈ lines, pyStrip l = "" ∨ firstNonWs l = some '#') →
      parse_m3u lines = [] := by
    intro lines h
    rw [parse_m3u_eq_spec]
    unfold parse_m3u_spec
    have hfil : lines.filter
        (fun raw => decide (pyStrip raw ≠ "" ∧ firstNonWs raw ≠ some '#')) = [] := by
      rw [List.filter_eq_nil_iff]
      intro a ha
      rcases h a ha with h1 | h1
      · simp [h1]
      · simp [h1]
    rw [hfil]
    rfl
  refine ⟨hempty, ?_⟩
  intro env files f lines h1 h2 h3 h4 hf hl hall
  have hm := mainRun_ok h1 h2 h3 h4
  rw [hm]
  apply List.mem_cons_of_mem
  rw [List.mem_flatten]
  refine ⟨(uploadOne env f).2, List.mem_map_of_mem _ hf, ?_⟩
  unfold uploadOne
  rw [hl]
  dsimp only
  rw [hempty lines hall]
  simp

/-- Claim C5: discovery fails with `InvalidInput` exactly on a regular file
whose extension is not `.m3u` case-insensitively, with `PathNotFound` exactly
when the path is neither an existing file nor directory; a matching file
yields a single-element list; and any discovery error makes the run exit with
code 1 having performed zero HTTP calls. -/
theorem claim_C5 :
    (∀ node r, gather_m3u_files node r = Except.error GatherError.invalidInput ↔
      ∃ name, node = FSNode.file name ∧ pyLower (pySuffix name) ≠ ".m3u") ∧
    (∀ node r, gather_m3u_files node r = Except.error GatherError.pathNotFound ↔
      node = FSNode.missing) ∧
    (∀ name r, pyLower (pySuffix name) = ".m3u" →
      gather_m3u_files (FSNode.file name) r = Except.ok [⟨r, name⟩]) ∧
    (∀ env, (∃ er, gather_m3u_files env.fs env.rootResolved = Except.error er) →
      mainRun env = (1, [])) := by
  refine ⟨?_, ?_, ?_, ?_⟩
  · intro node r
    cases node with
    | file name =>
        constructor
        · intro h
          by_cases hc : pyLower (pySuffix name) ≠ ".m3u"
          · exact ⟨name, rfl, hc⟩
          · simp only [gather_m3u_files] at h
            rw [if_neg hc] at h
            exact Except.noConfusion h
        · rintro ⟨name2, hn, hc⟩
          injection hn with hn2
          subst hn2
          simp only [gather_m3u_files]
          rw [if_pos hc]
    | dir entries =>
        constructor
        · intro h
          simp [gather_m3u_files] at h
        · rintro ⟨name2, hn, _⟩
          exact FSNode.noConfusion hn
    | missing =>
        constructor
        · intro h
          simp [gather_m3u_files] at h
        · rintro ⟨name2, hn, _⟩
          exact FSNode.noConfusion hn
  · intro node r
    cases node with
    | file name =>
        by_cases hc : pyLower (pySuffix name) ≠ ".m3u" <;>
          simp [gather_m3u_files, hc]
    | dir entries => simp [gather_m3u_files]
    | missing => simp [gather_m3u_files]
  · intro name r hc
    have hnn : ¬(pyLower (pySuffix name) ≠ ".m3u") := fun hne => hne hc
    simp only [gather_m3u_files]
    rw [if_neg hnn]
  · rintro env ⟨er, h⟩
    exact mainRun_gather_error h

/-- Claim C7: the request URL strips trailing slashes from the configured
base URL and leading slashes from the endpoint and joins them with exactly
one separating slash; in particular base `http://host:3000/` and endpoint
`/api/v1/auth/login` combine to `http://host:3000/api/v1/auth/login`. -/
theorem claim_C7 :
    requestUrl "http://host:3000/" "/api/v1/auth/login" =
      "http://host:3000/api/v1/auth/login" ∧
    ∀ base endpoint,
      (rstripSlash base).data.getLast? ≠ some '/' ∧
      (lstripSlash endpoint).data.head? ≠ some '/' ∧
      requestUrl base endpoint = rstripSlash base ++ "/" ++ lstripSlash endpoint := by
  refine ⟨rfl, ?_⟩
  intro b e
  refine ⟨?_, ?_, rfl⟩
  · intro h
    unfold rstripSlash at h
    rw [data_mk] at h
    by_cases hn : List.rdropWhile (· == '/') b.data = []
    · rw [hn] at h
      exact Option.noConfusion h
    · rw [List.getLast?_eq_getLast _ hn] at h
      have heq := Option.some.inj h
      have hlast := List.rdropWhile_last_not (· == '/') b.data hn
      rw [heq] at hlast
      simp at hlast
  · intro h
    unfold lstripSlash at h
    rw [data_mk] at h
    have hnot := List.head?_dropWhile_not (· == '/') e.data
    rw [h] at hnot
    simp at hnot

/-- Claim C8: the configuration check verifies that the server base URL,
username and password are all non-empty; if any is empty the run fails with
exit code 1 before any network or file activity. -/
theorem claim_C8 :
    (∀ c : Config, Settings.validateOk c = true ↔
      (c.BASE_URL ≠ "" ∧ c.USERNAME ≠ "" ∧ c.PASSWORD ≠ "")) ∧
    (∀ env : RunEnv, Settings.validateOk env.config = false → mainRun env = (1, [])) :=
  ⟨validateOk_iff, fun _ h => mainRun_config_fail h⟩

/-- Claim C9: every file accepted by `gather_m3u_files` has a non-empty
derived name (filename without extension), so every submitted playlist title
is non-empty. -/
theorem claim_C9 (node : FSNode) (r : String) (files : List PathItem) (f : PathItem)
    (h : gather_m3u_files node r = Except.ok files) (hf : f ∈ files) :
    pyStem f.name ≠ "" := by
  cases node with
  | file name =>
      by_cases hc : pyLower (pySuffix name) ≠ ".m3u"
      · simp only [gather_m3u_files] at h
        rw [if_pos hc] at h
        exact Except.noConfusion h
      · simp only [gather_m3u_files] at h
        rw [if_neg hc] at h
        have hfiles := Except.ok.inj h
        push_neg at hc
        rw [← hfiles, List.mem_singleton] at hf
        rw [hf]
        exact pyStem_ne_of_data_ne_nil (suffix_lower_cond hc)
  | dir entries =>
      simp only [gather_m3u_files] at h
      have hfiles := Except.ok.inj h
      rw [← hfiles, List.mem_insertionSort, List.mem_map] at hf
      obtain ⟨e, he, hfe⟩ := hf
      rw [List.mem_filter, Bool.and_eq_true] at he
      rw [← hfe]
      exact pyStem_ne_of_data_ne_nil (glob_ne_nil he.2.2)
  | missing =>
      exact Except.noConfusion h

/-- Claim C10: extension matching is asymmetric between the two input modes:
the file `SONGS.M3U` given directly as the path is accepted (case-insensitive
suffix check), while the same file inside a scanned directory is silently
excluded (the glob matches only the exact lowercase `.m3u`). -/
theorem claim_C10 :
    (∀ r, gather_m3u_files (FSNode.file "SONGS.M3U") r = Except.ok [⟨r, "SONGS.M3U"⟩]) ∧
    gather_m3u_files (FSNode.dir [⟨"SONGS.M3U", true⟩]) "/music" = Except.ok [] :=
  ⟨fun _ => rfl, rfl⟩

/-! ### Concrete runs used as witnesses -/

def configOk : Config := ⟨"http://127.0.0.1:3000", "admin", "admin"⟩

def pathsThree : List PathItem :=
  [⟨"/pl/a.m3u", "a.m3u"⟩, ⟨"/pl/b.m3u", "b.m3u"⟩, ⟨"/pl/c.m3u", "c.m3u"⟩]

def envC3 : RunEnv :=
  ⟨configOk, FSNode.dir [⟨"b.m3u", true⟩, ⟨"a.m3u", true⟩, ⟨"c.m3u", true⟩], "/pl",
    true, fun _ => some ["song1", "# end"], fun p => p != "/pl/b.m3u"⟩

theorem claim_C3_witness :
    Settings.validateOk envC3.config = true ∧
    gather_m3u_files envC3.fs envC3.rootResolved = Except.ok pathsThree ∧
    pathsThree ≠ [] ∧ envC3.loginOk = true ∧
    (mainRun envC3).1 = 0 ∧
    Event.uploadAttempt "c" ["song1"] ∈ (mainRun envC3).2 := by
  have h := claim_C3 envC3 pathsThree rfl rfl (by decide) rfl
  exact ⟨rfl, rfl, by decide, rfl, h.1,
    h.2 ⟨"/pl/c.m3u", "c.m3u"⟩ (by decide) ["song1", "# end"] rfl⟩

def envC4 : RunEnv :=
  ⟨configOk, FSNode.dir [⟨"b.m3u", true⟩, ⟨"a.m3u", true⟩, ⟨"c.m3u", true⟩], "/pl",
    false, fun _ => some ["song1"], fun _ => true⟩

theorem claim_C4_witness :
    Settings.validateOk envC4.config = true ∧
    gather_m3u_files envC4.fs envC4.rootResolved = Except.ok pathsThree ∧
    pathsThree ≠ [] ∧ envC4.loginOk = false ∧
    (mainRun envC4).2.countP Event.isLogin = 1 ∧
    (mainRun envC4).1 = 1 ∧ (mainRun envC4).2.countP Event.isUpload = 0 := by
  have h := claim_C4 envC4 pathsThree rfl rfl (by decide)
  exact ⟨rfl, rfl, by decide, rfl, h.1.1, (h.2 rfl).1, (h.2 rfl).2⟩

def envC5 : RunEnv :=
  ⟨configOk, FSNode.file "song.txt", "/song.txt", true, fun _ => none, fun _ => true⟩

theorem claim_C5_witness :
    gather_m3u_files (FSNode.file "song.txt") "/song.txt" =
      Except.error GatherError.invalidInput ∧
    gather_m3u_files FSNode.missing "/absent" = Except.error GatherError.pathNotFound ∧
    gather_m3u_files (FSNode.file "list.M3U") "/list.M3U" =
      Except.ok [⟨"/list.M3U", "list.M3U"⟩] ∧
    mainRun envC5 = (1, []) := by
  refine ⟨?_, ?_, ?_, ?_⟩
  · exact (claim_C5.1 (FSNode.file "song.txt") "/song.txt").mpr ⟨"song.txt", rfl, by decide⟩
  · exact (claim_C5.2.1 FSNode.missing "/absent").mpr rfl
  · exact claim_C5.2.2.1 "list.M3U" "/list.M3U" (by decide)
  · exact claim_C5.2.2.2 envC5 ⟨GatherError.invalidInput, rfl⟩

def envC6 : RunEnv :=
  ⟨configOk, FSNode.dir [⟨"a.m3u", true⟩], "/pl", true,
    fun _ => some ["#EXTM3U", "   "], fun _ => true⟩

theorem claim_C6_witness :
    parse_m3u ["#EXTM3U", "   "] = [] ∧
    Event.uploadAttempt "a" [] ∈ (mainRun envC6).2 := by
  refine ⟨claim_C6.1 ["#EXTM3U", "   "] (by decide), ?_⟩
  exact claim_C6.2 envC6 [⟨"/pl/a.m3u", "a.m3u"⟩] ⟨"/pl/a.m3u", "a.m3u"⟩
    ["#EXTM3U", "   "] rfl rfl (by decide) rfl (by decide) rfl (by decide)

def envC8 : RunEnv :=
  ⟨⟨"http://127.0.0.1:3000", "admin", ""⟩, FSNode.missing, "/x", true,
    fun _ => none, fun _ => true⟩

theorem claim_C8_witness :
    Settings.validateOk envC8.config = false ∧ mainRun envC8 = (1, []) :=
  ⟨rfl, claim_C8.2 envC8 rfl⟩

theorem claim_C9_witness :
    gather_m3u_files (FSNode.file "mix.m3u") "/mix.m3u" =
      Except.ok [⟨"/mix.m3u", "mix.m3u"⟩] ∧
    pyStem "mix.m3u" ≠ "" :=
  ⟨rfl, claim_C9 (FSNode.file "mix.m3u") "/mix.m3u" [⟨"/mix.m3u", "mix.m3u"⟩]
    ⟨"/mix.m3u", "mix.m3u"⟩ rfl (by decide)⟩
